import Mathlib

/-!
Shallow embedding of the midly track-event decoder (`src/event.rs`).

Byte buffers are embedded as `List Nat` (each element a byte value `< 256`);
the Rust `&mut &[u8]` cursor becomes explicit state passing: a reader takes
the current list and returns the remaining suffix.  The `&mut Option<u8>`
running-status cell becomes an explicit `Option Nat` threaded in and out.
Fallible readers return `Except Err`.  On a failure the Rust cursor is
declared unspecified ("poisoned") by the design, so the embedding returns
the pre-dispatch cursor there; the running-status cell, which *is*
observable after a failure, is returned exactly as the code leaves it.
-/

/-- Error kinds of the decoder, following the taxonomy the code's `err_msg` /
`bail!` / `ensure!` sites distinguish. -/
inductive Err
  /-- fewer bytes remain than the construct requires -/
  | shortInput
  /-- a u7 position holds a byte ≥ 0x80, a u4 meta field > 15, or a VLQ
  exceeds 4 bytes -/
  | malformedInt
  /-- data byte at event start with no prior running status -/
  | missingRunningStatus
  /-- status byte not in 0x80..=0xEF, 0xF0, 0xF7, 0xFF -/
  | invalidEventStatus
  /-- `MidiMessage::read` called with a high nibble outside 0x8..=0xE -/
  | invalidMidiStatus
  /-- declared meta payload length contradicts the type's required length -/
  | invalidDataLen
  /-- meta type byte not in the table -/
  | invalidMetaType
deriving DecidableEq, Repr

/-- Modelled from the spec: `u8::read` of the missing `primitive.rs`
(§4.1 `read_u8`): read one byte, fail if none remain. -/
def u8_read (raw : List Nat) : Except Err (Nat × List Nat) :=
  match raw with
  | [] => Except.error Err.shortInput
  | b :: rest => Except.ok (b, rest)

/-- Modelled from the spec: `u7::read` of the missing `primitive.rs`
(§4.1 `read_u7`): read one byte, fail if its high bit is set. -/
def u7_read (raw : List Nat) : Except Err (Nat × List Nat) :=
  match raw with
  | [] => Except.error Err.shortInput
  | b :: rest => if b < 0x80 then Except.ok (b, rest) else Except.error Err.malformedInt

/-- Modelled from the spec: `u4::read` of the missing `primitive.rs`
(§6: MidiChannel rejected if value > 15). -/
def u4_read (raw : List Nat) : Except Err (Nat × List Nat) :=
  match raw with
  | [] => Except.error Err.shortInput
  | b :: rest => if b < 0x10 then Except.ok (b, rest) else Except.error Err.malformedInt

/-- Modelled from the spec: `u16::read` of the missing `primitive.rs`
(§4.1 `read_u16`): big-endian, fail if fewer than 2 bytes remain. -/
def u16_read (raw : List Nat) : Except Err (Nat × List Nat) :=
  match raw with
  | b0 :: b1 :: rest => Except.ok (b0 * 256 + b1, rest)
  | _ => Except.error Err.shortInput

/-- Modelled from the spec: `u24::read` of the missing `primitive.rs`
(§4.1 `read_u24`): big-endian, fail if fewer than 3 bytes remain. -/
def u24_read (raw : List Nat) : Except Err (Nat × List Nat) :=
  match raw with
  | b0 :: b1 :: b2 :: rest => Except.ok ((b0 * 256 + b1) * 256 + b2, rest)
  | _ => Except.error Err.shortInput

/-- Modelled from the spec: `u14::read_u7` of the missing `primitive.rs`
(§4.1 `read_u14_as_two_u7`): two bytes, each a u7; the first supplies the
low 7 bits, the second the high 7 bits. -/
def u14_read_u7 (raw : List Nat) : Except Err (Nat × List Nat) := do
  let (lsb, raw) ← u7_read raw
  let (msb, raw) ← u7_read raw
  Except.ok (lsb + msb * 128, raw)

/-- Fuel-bounded helper for the VLQ reader: at most `fuel` more bytes may be
consumed; each byte contributes its low 7 bits, high bit means continue. -/
def read_vlq_aux : Nat → Nat → List Nat → Except Err (Nat × List Nat)
  | 0, _, _ => Except.error Err.malformedInt
  | _ + 1, _, [] => Except.error Err.shortInput
  | fuel + 1, acc, b :: rest =>
    let acc := acc * 128 + b % 128
    if b < 0x80 then Except.ok (acc, rest) else read_vlq_aux fuel acc rest

/-- Modelled from the spec: `u28::read_u7` of the missing `primitive.rs`
(§4.1 `read_vlq`): consume 1..=4 bytes; fail if after 4 bytes the
continuation bit is still set, or input is exhausted mid-VLQ. -/
def u28_read_u7 (raw : List Nat) : Except Err (Nat × List Nat) :=
  read_vlq_aux 4 0 raw

/-- Modelled from the spec: `read_varlen_slice` of the missing
`primitive.rs` (§4.1 `read_vlq_slice`): read a VLQ length n, then borrow
the next n bytes (fail if fewer remain) and advance past them. -/
def read_varlen_slice (raw : List Nat) : Except Err (List Nat × List Nat) := do
  let (n, raw) ← u28_read_u7 raw
  if n ≤ raw.length then Except.ok (raw.take n, raw.drop n)
  else Except.error Err.shortInput

/-- Modelled from the spec: `SmpteTime` of the missing `primitive.rs`
(§4.1 `read_smpte`): five raw bytes, preserved losslessly. -/
structure SmpteTime where
  hr : Nat
  mn : Nat
  se : Nat
  fr : Nat
  ff : Nat
deriving DecidableEq, Repr

/-- Modelled from the spec: `SmpteTime::read` of the missing
`primitive.rs` (§4.1 `read_smpte`): read 5 bytes hr/mn/se/fr/ff. -/
def SmpteTime.read (raw : List Nat) : Except Err (SmpteTime × List Nat) := do
  let (hr, raw) ← u8_read raw
  let (mn, raw) ← u8_read raw
  let (se, raw) ← u8_read raw
  let (fr, raw) ← u8_read raw
  let (ff, raw) ← u8_read raw
  Except.ok ({ hr := hr, mn := mn, se := se, fr := fr, ff := ff }, raw)

/-- `status.bit_range(0..4)`: the low nibble of a byte. -/
def bit_range_0_4 (b : Nat) : Nat := b % 16

/-- `status.bit_range(4..8)`: the high nibble of a byte. -/
def bit_range_4_8 (b : Nat) : Nat := b / 16 % 16

/-- Rust `u8 as i8`: two's-complement reinterpretation of a byte. -/
def as_i8 (b : Nat) : Int := if b < 128 then (b : Int) else (b : Int) - 256

/-- `MidiMessage` (`src/event.rs`): a typed MIDI channel message.  The u7
and u14 payloads are embedded as `Nat` values. -/
inductive MidiMessage
  | NoteOff (key vel : Nat)
  | NoteOn (key vel : Nat)
  | Aftertouch (key vel : Nat)
  | Controller (controller value : Nat)
  | ProgramChange (program : Nat)
  | ChannelAftertouch (vel : Nat)
  | PitchBend (bend : Nat)
deriving DecidableEq, Repr

/-- `MidiMessage::read` (`src/event.rs`): dispatch on the high nibble of
the separately-given status byte; the cursor points at the args only. -/
def MidiMessage.read (raw : List Nat) (status : Nat) :
    Except Err (MidiMessage × List Nat) :=
  match bit_range_4_8 status with
  | 0x8 => do
    let (k, raw) ← u7_read raw
    let (v, raw) ← u7_read raw
    Except.ok (MidiMessage.NoteOff k v, raw)
  | 0x9 => do
    let (k, raw) ← u7_read raw
    let (v, raw) ← u7_read raw
    Except.ok (MidiMessage.NoteOn k v, raw)
  | 0xA => do
    let (k, raw) ← u7_read raw
    let (v, raw) ← u7_read raw
    Except.ok (MidiMessage.Aftertouch k v, raw)
  | 0xB => do
    let (c, raw) ← u7_read raw
    let (v, raw) ← u7_read raw
    Except.ok (MidiMessage.Controller c v, raw)
  | 0xC => do
    let (p, raw) ← u7_read raw
    Except.ok (MidiMessage.ProgramChange p, raw)
  | 0xD => do
    let (v, raw) ← u7_read raw
    Except.ok (MidiMessage.ChannelAftertouch v, raw)
  | 0xE => do
    let (b, raw) ← u14_read_u7 raw
    Except.ok (MidiMessage.PitchBend b, raw)
  | _ => Except.error Err.invalidMidiStatus

/-- `MetaMessage` (`src/event.rs`): a typed meta message; borrowed slices
are embedded as `List Nat`, the `i8` of KeySignature as `Int`. -/
inductive MetaMessage
  | TrackNumber (n : Option Nat)
  | Text (data : List Nat)
  | Copyright (data : List Nat)
  | TrackName (data : List Nat)
  | InstrumentName (data : List Nat)
  | Lyric (data : List Nat)
  | Marker (data : List Nat)
  | CuePoint (data : List Nat)
  | ProgramName (data : List Nat)
  | DeviceName (data : List Nat)
  | MidiChannel (channel : Nat)
  | MidiPort (port : Nat)
  | EndOfTrack
  | Tempo (t : Nat)
  | SmpteOffset (t : SmpteTime)
  | TimeSignature (num den clocks thirtyseconds : Nat)
  | KeySignature (sharps : Int) (minor : Bool)
  | SequencerSpecific (data : List Nat)
deriving DecidableEq, Repr

/-- The `match type_byte` dispatch block of `MetaMessage::read`
(`src/event.rs` lines 161-212), factored out under a name: each arm
validates `data.len()` where the table fixes it (note: *not* for 0x59) and
parses the payload from a secondary cursor over `data`; `raw` is the main
cursor, already past the payload, returned untouched. -/
def meta_dispatch (type_byte : Nat) (data raw : List Nat) :
    Except Err (MetaMessage × List Nat) :=
  match type_byte with
  | 0x00 =>
    if data.length = 0 then Except.ok (MetaMessage.TrackNumber none, raw)
    else if data.length = 2 then do
      let (n, _) ← u16_read data
      Except.ok (MetaMessage.TrackNumber (some n), raw)
    else Except.error Err.invalidDataLen
  | 0x01 => Except.ok (MetaMessage.Text data, raw)
  | 0x02 => Except.ok (MetaMessage.Copyright data, raw)
  | 0x03 => Except.ok (MetaMessage.TrackName data, raw)
  | 0x04 => Except.ok (MetaMessage.InstrumentName data, raw)
  | 0x05 => Except.ok (MetaMessage.Lyric data, raw)
  | 0x06 => Except.ok (MetaMessage.Marker data, raw)
  | 0x07 => Except.ok (MetaMessage.CuePoint data, raw)
  | 0x08 => Except.ok (MetaMessage.ProgramName data, raw)
  | 0x09 => Except.ok (MetaMessage.DeviceName data, raw)
  | 0x20 =>
    if data.length = 1 then do
      let (c, _) ← u4_read data
      Except.ok (MetaMessage.MidiChannel c, raw)
    else Except.error Err.invalidDataLen
  | 0x21 =>
    if data.length = 1 then do
      let (p, _) ← u7_read data
      Except.ok (MetaMessage.MidiPort p, raw)
    else Except.error Err.invalidDataLen
  | 0x2F =>
    if data.length = 0 then Except.ok (MetaMessage.EndOfTrack, raw)
    else Except.error Err.invalidDataLen
  | 0x51 =>
    if data.length = 3 then do
      let (t, _) ← u24_read data
      Except.ok (MetaMessage.Tempo t, raw)
    else Except.error Err.invalidDataLen
  | 0x54 =>
    if data.length = 5 then do
      let (t, _) ← SmpteTime.read data
      Except.ok (MetaMessage.SmpteOffset t, raw)
    else Except.error Err.invalidDataLen
  | 0x58 =>
    if data.length = 4 then do
      let (n, data) ← u8_read data
      let (d, data) ← u8_read data
      let (c, data) ← u8_read data
      let (t, _) ← u8_read data
      Except.ok (MetaMessage.TimeSignature n d c t, raw)
    else Except.error Err.invalidDataLen
  | 0x59 => do
    let (sf, data) ← u8_read data
    let (mi, _) ← u8_read data
    Except.ok (MetaMessage.KeySignature (as_i8 sf) (mi != 0), raw)
  | 0x7F => Except.ok (MetaMessage.SequencerSpecific data, raw)
  | _ => Except.error Err.invalidMetaType

/-- `MetaMessage::read` (`src/event.rs`): read the type byte, a
VLQ-prefixed payload `data`, then dispatch on the type byte
(`meta_dispatch`). -/
def MetaMessage.read (raw : List Nat) : Except Err (MetaMessage × List Nat) := do
  let (type_byte, raw) ← u8_read raw
  let (data, raw) ← read_varlen_slice raw
  meta_dispatch type_byte data raw

/-- `EventKind` (`src/event.rs`): the four event families. -/
inductive EventKind
  | Midi (channel : Nat) (message : MidiMessage)
  | SysEx (data : List Nat)
  | Escape (data : List Nat)
  | Meta (message : MetaMessage)
deriving DecidableEq, Repr

/-- The `match status` dispatch block of `EventKind::read`
(`src/event.rs` lines 52-71), factored out under a name: channel messages
for 0x80..=0xEF, VLQ-prefixed SysEx / Escape blobs for 0xF0 / 0xF7, meta
messages for 0xFF, and a fatal invalid-status error otherwise. -/
def event_dispatch (status : Nat) (raw1 : List Nat) :
    Except Err (EventKind × List Nat) :=
  if 0x80 ≤ status ∧ status ≤ 0xEF then
    match MidiMessage.read raw1 status with
    | Except.ok (m, raw2) =>
      Except.ok (EventKind.Midi (bit_range_0_4 status) m, raw2)
    | Except.error e => Except.error e
  else if status = 0xF0 then
    match read_varlen_slice raw1 with
    | Except.ok (data, raw2) => Except.ok (EventKind.SysEx data, raw2)
    | Except.error e => Except.error e
  else if status = 0xF7 then
    match read_varlen_slice raw1 with
    | Except.ok (data, raw2) => Except.ok (EventKind.Escape data, raw2)
    | Except.error e => Except.error e
  else if status = 0xFF then
    match MetaMessage.read raw1 with
    | Except.ok (m, raw2) => Except.ok (EventKind.Meta m, raw2)
    | Except.error e => Except.error e
  else Except.error Err.invalidEventStatus

/-- `EventKind::read` (`src/event.rs`): peek the first byte; a byte ≥ 0x80
is consumed as the new status and *written to the running-status cell*; a
byte < 0x80 resolves the status from the cell (failing if empty) without
consuming.  Dispatch on the resolved status (`event_dispatch`), then
return the prefix of the entry cursor covering exactly the consumed bytes.
The triple returned is (result, final cursor, final running-status cell). -/
def EventKind.read (raw : List Nat) (running_status : Option Nat) :
    Except Err (List Nat × EventKind) × List Nat × Option Nat :=
  let old_slice := raw
  match raw.head? with
  | none => (Except.error Err.shortInput, raw, running_status)
  | some b =>
    let step : Except Err (Nat × List Nat × Option Nat) :=
      if b < 0x80 then
        match running_status with
        | none => Except.error Err.missingRunningStatus
        | some s => Except.ok (s, raw, running_status)
      else
        Except.ok (b, raw.drop 1, some b)
    match step with
    | Except.error e => (Except.error e, raw, running_status)
    | Except.ok (status, raw1, rs1) =>
      match event_dispatch status raw1 with
      | Except.error e => (Except.error e, raw1, rs1)
      | Except.ok (kind, raw2) =>
        let len := old_slice.length - raw2.length
        (Except.ok (old_slice.take len, kind), raw2, rs1)

/-- `Event` (`src/event.rs`): a delta time (u28, embedded as `Nat`) plus an
`EventKind`. -/
structure Event where
  delta : Nat
  kind : EventKind
deriving DecidableEq, Repr

/-- `Event::read` (`src/event.rs`): read the delta-time VLQ, then delegate
to `EventKind::read`; the raw slice returned is the one computed by
`EventKind::read` (it starts after the delta bytes). -/
def Event.read (raw : List Nat) (running_status : Option Nat) :
    Except Err (List Nat × Event) × List Nat × Option Nat :=
  match u28_read_u7 raw with
  | Except.error e => (Except.error e, raw, running_status)
  | Except.ok (delta, raw1) =>
    match EventKind.read raw1 running_status with
    | (Except.error e, raw2, rs2) => (Except.error e, raw2, rs2)
    | (Except.ok (slice, kind), raw2, rs2) =>
      (Except.ok (slice, { delta := delta, kind := kind }), raw2, rs2)

/-! ### Cursor-consumption lemmas

Every reader only ever consumes a prefix of its cursor: the output cursor is
a suffix (a `drop`) of the input cursor.  This is what makes the pointer
arithmetic at the end of `EventKind::read` meaningful. -/

/-- The output cursor of a reader is a suffix of its input cursor. -/
def Consumes (inp out : List Nat) : Prop :=
  ∃ k, k ≤ inp.length ∧ out = inp.drop k

theorem Consumes.drop (l : List Nat) (n : Nat) : Consumes l (l.drop n) := by
  by_cases h : n ≤ l.length
  · exact ⟨n, h, rfl⟩
  · refine ⟨l.length, Nat.le_refl _, ?_⟩
    rw [List.drop_length, List.drop_eq_nil_of_le (by omega)]

theorem Consumes.trans {a b c : List Nat} (h1 : Consumes a b) (h2 : Consumes b c) :
    Consumes a c := by
  obtain ⟨k1, hk1, rfl⟩ := h1
  obtain ⟨k2, hk2, rfl⟩ := h2
  have hl : (a.drop k1).length = a.length - k1 := List.length_drop k1 a
  refine ⟨k1 + k2, by omega, ?_⟩
  rw [List.drop_drop, Nat.add_comm]

theorem Consumes.append_take {inp out : List Nat} (h : Consumes inp out) :
    inp.take (inp.length - out.length) ++ out = inp := by
  obtain ⟨k, hk, rfl⟩ := h
  have h1 : (inp.drop k).length = inp.length - k := List.length_drop k inp
  have h2 : inp.length - (inp.drop k).length = k := by omega
  rw [h2, List.take_append_drop]

theorem except_bind_ok {α β : Type} {r : Except Err α} {f : α → Except Err β} {v : β}
    (h : (r >>= f) = Except.ok v) : ∃ a, r = Except.ok a ∧ f a = Except.ok v := by
  cases r with
  | error e => simp [bind, Except.bind] at h
  | ok a => exact ⟨a, rfl, by simpa [bind, Except.bind] using h⟩

theorem u8_read_consumes {raw out : List Nat} {v : Nat}
    (h : u8_read raw = Except.ok (v, out)) : Consumes raw out := by
  cases raw with
  | nil => simp [u8_read] at h
  | cons b rest =>
    simp only [u8_read, Except.ok.injEq, Prod.mk.injEq] at h
    obtain ⟨-, rfl⟩ := h
    exact Consumes.drop (b :: rest) 1

theorem u7_read_consumes {raw out : List Nat} {v : Nat}
    (h : u7_read raw = Except.ok (v, out)) : Consumes raw out := by
  cases raw with
  | nil => simp [u7_read] at h
  | cons b rest =>
    simp only [u7_read] at h
    by_cases hb : b < 0x80
    · rw [if_pos hb] at h
      simp only [Except.ok.injEq, Prod.mk.injEq] at h
      obtain ⟨-, rfl⟩ := h
      exact Consumes.drop (b :: rest) 1
    · rw [if_neg hb] at h
      cases h

theorem u4_read_consumes {raw out : List Nat} {v : Nat}
    (h : u4_read raw = Except.ok (v, out)) : Consumes raw out := by
  cases raw with
  | nil => simp [u4_read] at h
  | cons b rest =>
    simp only [u4_read] at h
    by_cases hb : b < 0x10
    · rw [if_pos hb] at h
      simp only [Except.ok.injEq, Prod.mk.injEq] at h
      obtain ⟨-, rfl⟩ := h
      exact Consumes.drop (b :: rest) 1
    · rw [if_neg hb] at h
      cases h

theorem u16_read_consumes {raw out : List Nat} {v : Nat}
    (h : u16_read raw = Except.ok (v, out)) : Consumes raw out := by
  unfold u16_read at h
  split at h
  · simp only [Except.ok.injEq, Prod.mk.injEq] at h
    obtain ⟨-, rfl⟩ := h
    exact Consumes.drop _ 2
  · cases h

theorem u24_read_consumes {raw out : List Nat} {v : Nat}
    (h : u24_read raw = Except.ok (v, out)) : Consumes raw out := by
  unfold u24_read at h
  split at h
  · simp only [Except.ok.injEq, Prod.mk.injEq] at h
    obtain ⟨-, rfl⟩ := h
    exact Consumes.drop _ 3
  · cases h

theorem u14_read_u7_consumes {raw out : List Nat} {v : Nat}
    (h : u14_read_u7 raw = Except.ok (v, out)) : Consumes raw out := by
  unfold u14_read_u7 at h
  obtain ⟨⟨a, r1⟩, h1, h⟩ := except_bind_ok h
  obtain ⟨⟨b, r2⟩, h2, h⟩ := except_bind_ok h
  simp only [Except.ok.injEq, Prod.mk.injEq] at h
  obtain ⟨-, rfl⟩ := h
  exact Consumes.trans (u7_read_consumes h1) (u7_read_consumes h2)

theorem read_vlq_aux_consumes :
    ∀ (fuel acc : Nat) (raw out : List Nat) (v : Nat),
      read_vlq_aux fuel acc raw = Except.ok (v, out) → Consumes raw out := by
  intro fuel
  induction fuel with
  | zero => intro acc raw out v h; simp [read_vlq_aux] at h
  | succ n ih =>
    intro acc raw out v h
    cases raw with
    | nil => simp [read_vlq_aux] at h
    | cons b rest =>
      unfold read_vlq_aux at h
      by_cases hb : b < 0x80
      · rw [if_pos hb] at h
        simp only [Except.ok.injEq, Prod.mk.injEq] at h
        obtain ⟨-, rfl⟩ := h
        exact Consumes.drop (b :: rest) 1
      · rw [if_neg hb] at h
        exact Consumes.trans (Consumes.drop (b :: rest) 1) (ih _ _ _ _ h)

theorem u28_read_u7_consumes {raw out : List Nat} {v : Nat}
    (h : u28_read_u7 raw = Except.ok (v, out)) : Consumes raw out :=
  read_vlq_aux_consumes 4 0 raw out v h

theorem read_varlen_slice_consumes {raw data out : List Nat}
    (h : read_varlen_slice raw = Except.ok (data, out)) : Consumes raw out := by
  unfold read_varlen_slice at h
  obtain ⟨⟨n, rest⟩, h1, h⟩ := except_bind_ok h
  replace h : (if n ≤ rest.length then Except.ok (rest.take n, rest.drop n)
      else Except.error Err.shortInput) = Except.ok (data, out) := h
  by_cases hn : n ≤ rest.length
  · rw [if_pos hn] at h
    simp only [Except.ok.injEq, Prod.mk.injEq] at h
    obtain ⟨-, rfl⟩ := h
    exact Consumes.trans (u28_read_u7_consumes h1) (Consumes.drop rest n)
  · rw [if_neg hn] at h
    cases h

theorem smpte_time_read_consumes {raw out : List Nat} {t : SmpteTime}
    (h : SmpteTime.read raw = Except.ok (t, out)) : Consumes raw out := by
  unfold SmpteTime.read at h
  obtain ⟨⟨a1, r1⟩, h1, h⟩ := except_bind_ok h
  obtain ⟨⟨a2, r2⟩, h2, h⟩ := except_bind_ok h
  obtain ⟨⟨a3, r3⟩, h3, h⟩ := except_bind_ok h
  obtain ⟨⟨a4, r4⟩, h4, h⟩ := except_bind_ok h
  obtain ⟨⟨a5, r5⟩, h5, h⟩ := except_bind_ok h
  simp only [Except.ok.injEq, Prod.mk.injEq] at h
  obtain ⟨-, rfl⟩ := h
  exact Consumes.trans (u8_read_consumes h1) (Consumes.trans (u8_read_consumes h2)
    (Consumes.trans (u8_read_consumes h3) (Consumes.trans (u8_read_consumes h4)
      (u8_read_consumes h5))))

theorem midi_message_read_consumes {raw out : List Nat} {status : Nat} {m : MidiMessage}
    (h : MidiMessage.read raw status = Except.ok (m, out)) : Consumes raw out := by
  unfold MidiMessage.read at h
  split at h <;>
  first
  | cases h
  | (obtain ⟨⟨a, r1⟩, h1, h⟩ := except_bind_ok h
     obtain ⟨⟨b, r2⟩, h2, h⟩ := except_bind_ok h
     simp only [Except.ok.injEq, Prod.mk.injEq] at h
     obtain ⟨-, rfl⟩ := h
     exact Consumes.trans (u7_read_consumes h1) (u7_read_consumes h2))
  | (obtain ⟨⟨a, r1⟩, h1, h⟩ := except_bind_ok h
     simp only [Except.ok.injEq, Prod.mk.injEq] at h
     obtain ⟨-, rfl⟩ := h
     exact u7_read_consumes h1)
  | (obtain ⟨⟨a, r1⟩, h1, h⟩ := except_bind_ok h
     simp only [Except.ok.injEq, Prod.mk.injEq] at h
     obtain ⟨-, rfl⟩ := h
     exact u14_read_u7_consumes h1)

theorem meta_dispatch_ok_cursor {t : Nat} {data raw out : List Nat} {m : MetaMessage}
    (h : meta_dispatch t data raw = Except.ok (m, out)) : out = raw := by
  unfold meta_dispatch at h
  split at h
  all_goals try split_ifs at h
  all_goals repeat obtain ⟨⟨_, _⟩, -, h⟩ := except_bind_ok h
  all_goals
    (first
      | (simp only [Except.ok.injEq, Prod.mk.injEq] at h
         exact h.2.symm)
      | cases h)

theorem meta_message_read_consumes {raw out : List Nat} {m : MetaMessage}
    (h : MetaMessage.read raw = Except.ok (m, out)) : Consumes raw out := by
  unfold MetaMessage.read at h
  obtain ⟨⟨type_byte, raw1⟩, h1, h⟩ := except_bind_ok h
  obtain ⟨⟨data, raw2⟩, h2, h⟩ := except_bind_ok h
  obtain rfl := meta_dispatch_ok_cursor h
  exact Consumes.trans (u8_read_consumes h1) (read_varlen_slice_consumes h2)


theorem event_dispatch_consumes {status : Nat} {raw1 raw2 : List Nat} {k : EventKind}
    (h : event_dispatch status raw1 = Except.ok (k, raw2)) : Consumes raw1 raw2 := by
  unfold event_dispatch at h
  split_ifs at h
  all_goals try split at h
  all_goals
    (first
      | (rename_i heq
         simp only [Except.ok.injEq, Prod.mk.injEq] at h
         obtain ⟨-, rfl⟩ := h
         first
          | exact midi_message_read_consumes heq
          | exact read_varlen_slice_consumes heq
          | exact meta_message_read_consumes heq)
      | cases h)


theorem event_dispatch_invalid {status : Nat} (raw1 : List Nat)
    (h1 : ¬(0x80 ≤ status ∧ status ≤ 0xEF)) (h2 : status ≠ 0xF0)
    (h3 : status ≠ 0xF7) (h4 : status ≠ 0xFF) :
    event_dispatch status raw1 = Except.error Err.invalidEventStatus := by
  unfold event_dispatch
  rw [if_neg h1, if_neg h2, if_neg h3, if_neg h4]

theorem rs_set_of_explicit_status (raw : List Nat) (rs : Option Nat) (b : Nat)
    (hb : raw.head? = some b) (h80 : 0x80 ≤ b) :
    (EventKind.read raw rs).2.2 = some b := by
  cases raw with
  | nil => simp at hb
  | cons x xs =>
    simp only [List.head?_cons, Option.some.injEq] at hb
    subst hb
    have hlt : ¬ x < 0x80 := by omega
    unfold EventKind.read
    simp only [List.head?_cons, hlt, if_false]
    split <;> rfl

theorem EventKind.read_ok_split {raw slice raw2 : List Nat} {rs rs2 : Option Nat}
    {k : EventKind}
    (h : EventKind.read raw rs = (Except.ok (slice, k), raw2, rs2)) :
    raw = slice ++ raw2 := by
  cases raw with
  | nil => unfold EventKind.read at h; simp at h
  | cons b rest =>
    unfold EventKind.read at h
    simp only [List.head?_cons] at h
    by_cases hlt : b < 0x80
    · rw [if_pos hlt] at h
      cases rs with
      | none => simp at h
      | some s =>
        split at h
        · rename_i e heq
          replace heq : Except.ok (s, b :: rest, some s) = Except.error e := heq
          simp at heq
        · rename_i status1 raw1 rs1 heq
          replace heq : Except.ok (s, b :: rest, some s) =
              Except.ok (status1, raw1, rs1) := heq
          simp only [Except.ok.injEq, Prod.mk.injEq] at heq
          obtain ⟨-, rfl, -⟩ := heq
          split at h
          · simp at h
          · rename_i kind r2 heq2
            simp only [Prod.mk.injEq, Except.ok.injEq] at h
            obtain ⟨⟨rfl, -⟩, rfl, -⟩ := h
            exact (Consumes.append_take (event_dispatch_consumes heq2)).symm
    · rw [if_neg hlt] at h
      split at h
      · rename_i e heq
        simp at heq
      · rename_i status1 raw1 rs1 heq
        simp only [Except.ok.injEq, Prod.mk.injEq] at heq
        obtain ⟨-, rfl, -⟩ := heq
        split at h
        · simp at h
        · rename_i kind r2 heq2
          simp only [Prod.mk.injEq, Except.ok.injEq] at h
          obtain ⟨⟨rfl, -⟩, rfl, -⟩ := h
          have hc : Consumes (b :: rest) r2 :=
            Consumes.trans (Consumes.drop (b :: rest) 1) (event_dispatch_consumes heq2)
          exact (Consumes.append_take hc).symm

theorem read_invalid_resolved_status {raw : List Nat} {rs : Option Nat} {b s : Nat}
    (h1 : raw.head? = some b)
    (h2 : (if 0x80 ≤ b then some b else rs) = some s)
    (h3 : ¬(0x80 ≤ s ∧ s ≤ 0xEF)) (h4 : s ≠ 0xF0) (h5 : s ≠ 0xF7) (h6 : s ≠ 0xFF) :
    (EventKind.read raw rs).1 = Except.error Err.invalidEventStatus := by
  have hdisp : ∀ raw1 : List Nat,
      event_dispatch s raw1 = Except.error Err.invalidEventStatus :=
    fun raw1 => event_dispatch_invalid raw1 h3 h4 h5 h6
  cases raw with
  | nil => simp at h1
  | cons x xs =>
    simp only [List.head?_cons, Option.some.injEq] at h1
    subst h1
    unfold EventKind.read
    simp only [List.head?_cons]
    by_cases hb : x < 0x80
    · have hnot : ¬ 0x80 ≤ x := by omega
      rw [if_neg hnot] at h2
      rw [if_pos hb, h2]
      simp only [hdisp]
    · have hge : 0x80 ≤ x := by omega
      rw [if_pos hge, Option.some.injEq] at h2
      subst h2
      rw [if_neg hb]
      simp only [hdisp]

/-! ### Claim theorems -/

/-- C1, counterexample: decoding the SysEx event `F0 00` succeeds, yet the
running-status cell changes from `none` to `some 0xF0` — the explicit
status write at the top of `EventKind::read` happens for system statuses
too, so system status bytes *do* set the cell. -/
theorem sysex_success_rewrites_running_status_cx :
    EventKind.read [0xF0, 0x00] none =
      (Except.ok ([0xF0, 0x00], EventKind.SysEx []), [], some 0xF0) ∧
    (some 0xF0 : Option Nat) ≠ none :=
  ⟨rfl, by simp⟩

/-- C1 (amended): successfully decoding a SysEx (0xF0), Escape (0xF7) or
Meta (0xFF) event whose status byte appears explicitly *sets* the
running-status cell to that system status byte, rather than leaving it
unchanged. -/
theorem system_status_sets_running_status {raw slice raw2 : List Nat}
    {rs rs2 : Option Nat} {k : EventKind} {b : Nat}
    (h1 : raw.head? = some b) (h2 : b = 0xF0 ∨ b = 0xF7 ∨ b = 0xFF)
    (h3 : EventKind.read raw rs = (Except.ok (slice, k), raw2, rs2)) :
    rs2 = some b := by
  have h80 : 0x80 ≤ b := by rcases h2 with rfl | rfl | rfl <;> omega
  have hset := rs_set_of_explicit_status raw rs b h1 h80
  rw [h3] at hset
  exact hset

theorem system_status_sets_running_status_witness :
    ([0xF0, 0x00] : List Nat).head? = some 0xF0 ∧
    ((0xF0 : Nat) = 0xF0 ∨ (0xF0 : Nat) = 0xF7 ∨ (0xF0 : Nat) = 0xFF) ∧
    EventKind.read [0xF0, 0x00] none =
      (Except.ok ([0xF0, 0x00], EventKind.SysEx []), [], some 0xF0) ∧
    (some 0xF0 : Option Nat) = some 0xF0 :=
  ⟨rfl, Or.inl rfl, rfl,
    system_status_sets_running_status
      (rfl : ([0xF0, 0x00] : List Nat).head? = some 0xF0) (Or.inl rfl)
      (rfl : EventKind.read [0xF0, 0x00] none =
        (Except.ok ([0xF0, 0x00], EventKind.SysEx []), [], some 0xF0))⟩

/-- C3: after `EventKind::read` successfully decodes a channel event whose
first byte is an explicit status S in 0x80..=0xEF, the running-status cell
equals `some S`. -/
theorem channel_status_sets_running_status {raw slice raw2 : List Nat}
    {rs rs2 : Option Nat} {S channel : Nat} {m : MidiMessage}
    (h1 : raw.head? = some S) (h2 : 0x80 ≤ S) (h3 : S ≤ 0xEF)
    (h4 : EventKind.read raw rs =
      (Except.ok (slice, EventKind.Midi channel m), raw2, rs2)) :
    rs2 = some S := by
  have hset := rs_set_of_explicit_status raw rs S h1 h2
  rw [h4] at hset
  exact hset

theorem channel_status_sets_running_status_witness :
    ([0x90, 0x3C, 0x40] : List Nat).head? = some 0x90 ∧
    (0x80 ≤ (0x90 : Nat)) ∧ ((0x90 : Nat) ≤ 0xEF) ∧
    EventKind.read [0x90, 0x3C, 0x40] none =
      (Except.ok ([0x90, 0x3C, 0x40], EventKind.Midi 0 (MidiMessage.NoteOn 0x3C 0x40)),
        [], some 0x90) ∧
    (some 0x90 : Option Nat) = some 0x90 :=
  ⟨rfl, by decide, by decide, rfl,
    channel_status_sets_running_status
      (rfl : ([0x90, 0x3C, 0x40] : List Nat).head? = some 0x90)
      (by decide) (by decide)
      (rfl : EventKind.read [0x90, 0x3C, 0x40] none =
        (Except.ok ([0x90, 0x3C, 0x40], EventKind.Midi 0 (MidiMessage.NoteOn 0x3C 0x40)),
          [], some 0x90))⟩

/-- C4: a data byte (high bit clear) at event start with an empty
running-status cell is a fatal missing-running-status error; in particular
the whole event `00 3C 40` fails this way. -/
theorem data_byte_no_running_status_fatal {raw : List Nat} {b : Nat}
    (h1 : raw.head? = some b) (h2 : b < 0x80) :
    (EventKind.read raw none).1 = Except.error Err.missingRunningStatus ∧
    (Event.read [0x00, 0x3C, 0x40] none).1 = Except.error Err.missingRunningStatus := by
  constructor
  · cases raw with
    | nil => simp at h1
    | cons x xs =>
      simp only [List.head?_cons, Option.some.injEq] at h1
      subst h1
      unfold EventKind.read
      simp only [List.head?_cons]
      rw [if_pos h2]
  · rfl

theorem data_byte_no_running_status_fatal_witness :
    ([0x3C, 0x40] : List Nat).head? = some 0x3C ∧ (0x3C : Nat) < 0x80 ∧
    (EventKind.read [0x3C, 0x40] none).1 = Except.error Err.missingRunningStatus :=
  ⟨rfl, by decide,
    (data_byte_no_running_status_fatal
      (rfl : ([0x3C, 0x40] : List Nat).head? = some 0x3C) (by decide)).1⟩

/-- C5: decoding `00 90 3C 40 10 3E 40` from an empty running-status cell
yields (Δ=0, channel 0, NoteOn(60,64)) then — via running status, without
consuming a status byte — (Δ=16, channel 0, NoteOn(62,64)); the second
event's raw slice starts at its leading data byte 0x3E. -/
theorem running_status_scenario_two_events :
    Event.read [0x00, 0x90, 0x3C, 0x40, 0x10, 0x3E, 0x40] none =
      (Except.ok ([0x90, 0x3C, 0x40],
          { delta := 0, kind := EventKind.Midi 0 (MidiMessage.NoteOn 60 64) }),
        [0x10, 0x3E, 0x40], some 0x90) ∧
    Event.read [0x10, 0x3E, 0x40] (some 0x90) =
      (Except.ok ([0x3E, 0x40],
          { delta := 16, kind := EventKind.Midi 0 (MidiMessage.NoteOn 62 64) }),
        [], some 0x90) :=
  ⟨rfl, rfl⟩

/-- C2, counterexample: for `00 FF 2F 00` the cursor advances 4 bytes
(delta VLQ included) but the returned raw slice is `FF 2F 00`, length 3:
the slice excludes the delta-time bytes, so advance ≠ slice length. -/
theorem event_read_advance_exceeds_slice_cx :
    Event.read [0x00, 0xFF, 0x2F, 0x00] none =
      (Except.ok ([0xFF, 0x2F, 0x00],
          { delta := 0, kind := EventKind.Meta MetaMessage.EndOfTrack }),
        [], some 0xFF) ∧
    ([0x00, 0xFF, 0x2F, 0x00] : List Nat).length - ([] : List Nat).length = 4 ∧
    ([0xFF, 0x2F, 0x00] : List Nat).length = 3 :=
  ⟨rfl, rfl, rfl⟩

/-- C2 (amended): for every successful `Event::read`, parsing the
delta-time VLQ from the input leaves exactly `slice ++ raw2` — the
returned raw slice begins immediately after the delta bytes and ends
exactly where the remaining cursor begins, so it covers exactly the bytes
consumed *after* the delta time (status resolution and payload).  The
input cursor therefore splits as delta-time VLQ bytes ++ slice ++
remaining cursor, and the total cursor advance equals the delta-byte
count plus the slice length — it exceeds the slice length by the delta
bytes instead of equalling it. -/
theorem event_read_slice_covers_post_delta_bytes {raw slice raw2 : List Nat}
    {rs rs2 : Option Nat} {ev : Event}
    (h : Event.read raw rs = (Except.ok (slice, ev), raw2, rs2)) :
    u28_read_u7 raw = Except.ok (ev.delta, slice ++ raw2) ∧
    ∃ deltaBytes : List Nat, raw = deltaBytes ++ slice ++ raw2 ∧
      raw.length - raw2.length = deltaBytes.length + slice.length := by
  unfold Event.read at h
  split at h
  · simp at h
  · rename_i d raw1 hv
    split at h
    · simp at h
    · rename_i slice1 kind raw21 rs21 heq
      simp only [Prod.mk.injEq, Except.ok.injEq] at h
      obtain ⟨⟨rfl, hev⟩, rfl, -⟩ := h
      have h1 := Consumes.append_take (u28_read_u7_consumes hv)
      have h2 := EventKind.read_ok_split heq
      rw [h2] at h1
      constructor
      · rw [← hev, ← h2]
        exact hv
      · have h4 := h1
        rw [← List.append_assoc] at h4
        refine ⟨raw.take (raw.length - (slice1 ++ raw21).length), h4.symm, ?_⟩
        have h3 : raw.length =
            (raw.take (raw.length - (slice1 ++ raw21).length)).length
              + slice1.length + raw21.length := by
          conv_lhs => rw [← h1]
          rw [List.length_append, List.length_append]
          omega
        omega

theorem event_read_slice_covers_post_delta_bytes_witness :
    Event.read [0x00, 0x90, 0x3C, 0x40] none =
      (Except.ok ([0x90, 0x3C, 0x40],
          { delta := 0, kind := EventKind.Midi 0 (MidiMessage.NoteOn 60 64) }),
        [], some 0x90) ∧
    (u28_read_u7 [0x00, 0x90, 0x3C, 0x40] =
        Except.ok (0, [0x90, 0x3C, 0x40] ++ []) ∧
      ∃ deltaBytes : List Nat,
        [0x00, 0x90, 0x3C, 0x40] = deltaBytes ++ [0x90, 0x3C, 0x40] ++ [] ∧
        ([0x00, 0x90, 0x3C, 0x40] : List Nat).length - ([] : List Nat).length =
          deltaBytes.length + ([0x90, 0x3C, 0x40] : List Nat).length) :=
  ⟨rfl, event_read_slice_covers_post_delta_bytes
    (rfl : Event.read [0x00, 0x90, 0x3C, 0x40] none =
      (Except.ok ([0x90, 0x3C, 0x40],
          { delta := 0, kind := EventKind.Midi 0 (MidiMessage.NoteOn 60 64) }),
        [], some 0x90))⟩

/-- C8: a resolved status byte outside 0x80..=0xEF, 0xF0, 0xF7, 0xFF — in
particular any explicit byte in 0xF1..=0xFE — makes `EventKind::read`
return the fatal invalid-status error and emit no event. -/
theorem invalid_status_byte_fatal {raw : List Nat} {rs : Option Nat} {b s : Nat}
    (h1 : raw.head? = some b)
    (h2 : (if 0x80 ≤ b then some b else rs) = some s)
    (h3 : ¬(0x80 ≤ s ∧ s ≤ 0xEF)) (h4 : s ≠ 0xF0) (h5 : s ≠ 0xF7) (h6 : s ≠ 0xFF) :
    (EventKind.read raw rs).1 = Except.error Err.invalidEventStatus :=
  read_invalid_resolved_status h1 h2 h3 h4 h5 h6

theorem invalid_status_byte_fatal_witness :
    ([0xF5] : List Nat).head? = some 0xF5 ∧
    ((if 0x80 ≤ (0xF5 : Nat) then some (0xF5 : Nat) else (none : Option Nat)) =
      some (0xF5 : Nat)) ∧
    ¬(0x80 ≤ (0xF5 : Nat) ∧ (0xF5 : Nat) ≤ 0xEF) ∧
    (EventKind.read [0xF5] none).1 = Except.error Err.invalidEventStatus :=
  ⟨rfl, by decide, by decide,
    invalid_status_byte_fatal (rfl : ([0xF5] : List Nat).head? = some 0xF5)
      (by decide : (if 0x80 ≤ (0xF5 : Nat) then some (0xF5 : Nat)
        else (none : Option Nat)) = some (0xF5 : Nat))
      (by decide) (by decide) (by decide) (by decide)⟩

/-- C9: an explicit invalid status byte in 0xF1..=0xFE (i.e. excluding
the Escape status 0xF7, which is not invalid) makes
`EventKind::read` fail — but only after the running-status cell has
already been overwritten with that invalid byte, so the failure is not
atomic with respect to the running-status state. -/
theorem invalid_status_error_updates_running_status {raw : List Nat}
    {rs : Option Nat} {b : Nat}
    (h1 : raw.head? = some b) (h2 : 0xF1 ≤ b) (h3 : b ≤ 0xFE) (h4 : b ≠ 0xF7) :
    (EventKind.read raw rs).1 = Except.error Err.invalidEventStatus ∧
    (EventKind.read raw rs).2.2 = some b := by
  have hs : (if 0x80 ≤ b then some b else rs) = some b :=
    if_pos (by omega : (0x80 : Nat) ≤ b)
  have ha : ¬(0x80 ≤ b ∧ b ≤ 0xEF) := by
    intro hc
    omega
  have hb0 : b ≠ 0xF0 := by omega
  have hb7 : b ≠ 0xF7 := h4
  have hbf : b ≠ 0xFF := by omega
  exact ⟨read_invalid_resolved_status h1 hs ha hb0 hb7 hbf,
    rs_set_of_explicit_status raw rs b h1 (by omega)⟩

theorem invalid_status_error_updates_running_status_witness :
    ([0xF4] : List Nat).head? = some 0xF4 ∧
    (0xF1 ≤ (0xF4 : Nat)) ∧ ((0xF4 : Nat) ≤ 0xFE) ∧ ((0xF4 : Nat) ≠ 0xF7) ∧
    ((EventKind.read [0xF4] none).1 = Except.error Err.invalidEventStatus ∧
      (EventKind.read [0xF4] none).2.2 = some 0xF4) :=
  ⟨rfl, by decide, by decide, by decide,
    invalid_status_error_updates_running_status
      (rfl : ([0xF4] : List Nat).head? = some 0xF4)
      (by decide) (by decide) (by decide)⟩

/-- C6 (code bug): `MetaMessage::read` does not validate the declared
payload length of a 0x59 KeySignature meta event — unlike every other
fixed-length meta type its arm has no length check — so a declared length
of 3 is accepted and KeySignature is decoded from the first two payload
bytes instead of failing with the length-mismatch error. -/
theorem keysignature_missing_length_check :
    MetaMessage.read [0x59, 0x03, 0x00, 0x00, 0x00] =
      Except.ok (MetaMessage.KeySignature 0 false, []) ∧
    (Event.read [0x00, 0xFF, 0x59, 0x03, 0x00, 0x00, 0x00] none).1 =
      Except.ok ([0xFF, 0x59, 0x03, 0x00, 0x00, 0x00],
        { delta := 0, kind := EventKind.Meta (MetaMessage.KeySignature 0 false) }) :=
  ⟨rfl, rfl⟩

/-- C7: for meta type 0x00 (TrackNumber), a declared payload length of 0
yields `TrackNumber none`, a length-2 payload `[b0, b1]` yields
`TrackNumber (some (b0*256+b1))` (big-endian u16), and any other declared
length is the fatal invalid-data-length error. -/
theorem tracknumber_payload_length_dispatch {raw data rest : List Nat}
    (h : read_varlen_slice raw = Except.ok (data, rest)) :
    (data.length = 0 → MetaMessage.read (0x00 :: raw) =
      Except.ok (MetaMessage.TrackNumber none, rest)) ∧
    (∀ p q, data = [p, q] → MetaMessage.read (0x00 :: raw) =
      Except.ok (MetaMessage.TrackNumber (some (p * 256 + q)), rest)) ∧
    (data.length ≠ 0 → data.length ≠ 2 →
      MetaMessage.read (0x00 :: raw) = Except.error Err.invalidDataLen) := by
  have e1 : MetaMessage.read (0x00 :: raw) =
      (read_varlen_slice raw >>= fun p =>
        match p with
        | (data, raw) => meta_dispatch 0x00 data raw) := rfl
  rw [h] at e1
  replace e1 : MetaMessage.read (0x00 :: raw) = meta_dispatch 0x00 data rest := e1
  refine ⟨?_, ?_, ?_⟩
  · intro h0
    obtain rfl := List.length_eq_zero.mp h0
    rw [e1]
    rfl
  · intro p q hd
    subst hd
    rw [e1]
    rfl
  · intro hn0 hn2
    rw [e1]
    have e2 : meta_dispatch 0x00 data rest =
        (if data.length = 0 then Except.ok (MetaMessage.TrackNumber none, rest)
         else if data.length = 2 then do
           let (n, _) ← u16_read data
           Except.ok (MetaMessage.TrackNumber (some n), rest)
         else Except.error Err.invalidDataLen) := rfl
    rw [e2, if_neg hn0, if_neg hn2]

theorem tracknumber_payload_length_dispatch_witness :
    read_varlen_slice [0x02, 0x01, 0x05] = Except.ok ([0x01, 0x05], []) ∧
    MetaMessage.read [0x00, 0x02, 0x01, 0x05] =
      Except.ok (MetaMessage.TrackNumber (some 261), []) :=
  ⟨rfl, (tracknumber_payload_length_dispatch
      (rfl : read_varlen_slice [0x02, 0x01, 0x05] =
        Except.ok ([0x01, 0x05], []))).2.1 0x01 0x05 rfl⟩

/-- The result of a channel-message parse is a typed message or an
argument-reading failure (short input / non-u7 byte). -/
def midi_result_ok_or_arg_error (r : Except Err (MidiMessage × List Nat)) : Prop :=
  (∃ m rest, r = Except.ok (m, rest)) ∨
  r = Except.error Err.shortInput ∨
  r = Except.error Err.malformedInt

theorem u7_read_cases (raw : List Nat) :
    (∃ v out, u7_read raw = Except.ok (v, out)) ∨
    u7_read raw = Except.error Err.shortInput ∨
    u7_read raw = Except.error Err.malformedInt := by
  cases raw with
  | nil => exact Or.inr (Or.inl rfl)
  | cons b rest =>
    by_cases hb : b < 0x80
    · exact Or.inl ⟨b, rest, by simp [u7_read, hb]⟩
    · exact Or.inr (Or.inr (by simp [u7_read, hb]))

theorem u14_read_u7_cases (raw : List Nat) :
    (∃ v out, u14_read_u7 raw = Except.ok (v, out)) ∨
    u14_read_u7 raw = Except.error Err.shortInput ∨
    u14_read_u7 raw = Except.error Err.malformedInt := by
  rcases u7_read_cases raw with ⟨a, r1, h1⟩ | h1 | h1
  · rcases u7_read_cases r1 with ⟨c, r2, h2⟩ | h2 | h2
    · exact Or.inl ⟨a + c * 128, r2, by simp [u14_read_u7, h1, h2, bind, Except.bind]⟩
    · exact Or.inr (Or.inl (by simp [u14_read_u7, h1, h2, bind, Except.bind]))
    · exact Or.inr (Or.inr (by simp [u14_read_u7, h1, h2, bind, Except.bind]))
  · exact Or.inr (Or.inl (by simp [u14_read_u7, h1, bind, Except.bind]))
  · exact Or.inr (Or.inr (by simp [u14_read_u7, h1, bind, Except.bind]))

theorem triage_two_u7 (raw : List Nat) (f : Nat → Nat → MidiMessage) :
    midi_result_ok_or_arg_error (do
      let (k, r) ← u7_read raw
      let (v, r) ← u7_read r
      Except.ok (f k v, r)) := by
  rcases u7_read_cases raw with ⟨a, r1, h1⟩ | h1 | h1
  · rcases u7_read_cases r1 with ⟨c, r2, h2⟩ | h2 | h2
    · exact Or.inl ⟨f a c, r2, by simp [h1, h2, bind, Except.bind]⟩
    · exact Or.inr (Or.inl (by simp [h1, h2, bind, Except.bind]))
    · exact Or.inr (Or.inr (by simp [h1, h2, bind, Except.bind]))
  · exact Or.inr (Or.inl (by simp [h1, bind, Except.bind]))
  · exact Or.inr (Or.inr (by simp [h1, bind, Except.bind]))

theorem triage_one_u7 (raw : List Nat) (f : Nat → MidiMessage) :
    midi_result_ok_or_arg_error (do
      let (k, r) ← u7_read raw
      Except.ok (f k, r)) := by
  rcases u7_read_cases raw with ⟨a, r1, h1⟩ | h1 | h1
  · exact Or.inl ⟨f a, r1, by simp [h1, bind, Except.bind]⟩
  · exact Or.inr (Or.inl (by simp [h1, bind, Except.bind]))
  · exact Or.inr (Or.inr (by simp [h1, bind, Except.bind]))

theorem triage_u14 (raw : List Nat) :
    midi_result_ok_or_arg_error (do
      let (b, r) ← u14_read_u7 raw
      Except.ok (MidiMessage.PitchBend b, r)) := by
  rcases u14_read_u7_cases raw with ⟨a, r1, h1⟩ | h1 | h1
  · exact Or.inl ⟨MidiMessage.PitchBend a, r1, by simp [h1, bind, Except.bind]⟩
  · exact Or.inr (Or.inl (by simp [h1, bind, Except.bind]))
  · exact Or.inr (Or.inr (by simp [h1, bind, Except.bind]))

/-- C10: for every status in 0x80..=0xEF (as passed by the channel
dispatch of `EventKind::read`), the high nibble is in 0x8..=0xE, so
`MidiMessage::read` never reaches its invalid-midi-status branch: it
returns a typed message or a short-input / non-u7 argument error. -/
theorem midi_read_total_in_channel_range (raw : List Nat) (status : Nat)
    (h1 : 0x80 ≤ status) (h2 : status ≤ 0xEF) :
    ((∃ m rest, MidiMessage.read raw status = Except.ok (m, rest)) ∨
      MidiMessage.read raw status = Except.error Err.shortInput ∨
      MidiMessage.read raw status = Except.error Err.malformedInt) ∧
    MidiMessage.read raw status ≠ Except.error Err.invalidMidiStatus := by
  have hnib : bit_range_4_8 status = 0x8 ∨ bit_range_4_8 status = 0x9 ∨
      bit_range_4_8 status = 0xA ∨ bit_range_4_8 status = 0xB ∨
      bit_range_4_8 status = 0xC ∨ bit_range_4_8 status = 0xD ∨
      bit_range_4_8 status = 0xE := by
    unfold bit_range_4_8
    omega
  have key : midi_result_ok_or_arg_error (MidiMessage.read raw status) := by
    unfold MidiMessage.read
    rcases hnib with h | h | h | h | h | h | h <;> rw [h]
    · exact triage_two_u7 raw MidiMessage.NoteOff
    · exact triage_two_u7 raw MidiMessage.NoteOn
    · exact triage_two_u7 raw MidiMessage.Aftertouch
    · exact triage_two_u7 raw MidiMessage.Controller
    · exact triage_one_u7 raw MidiMessage.ProgramChange
    · exact triage_one_u7 raw MidiMessage.ChannelAftertouch
    · exact triage_u14 raw
  refine ⟨key, ?_⟩
  rcases key with ⟨m, rest, hk⟩ | hk | hk <;> rw [hk] <;> simp

theorem midi_read_total_in_channel_range_witness :
    (0x80 ≤ (0x90 : Nat)) ∧ ((0x90 : Nat) ≤ 0xEF) ∧
    (((∃ m rest, MidiMessage.read [0x3C, 0x40] 0x90 = Except.ok (m, rest)) ∨
        MidiMessage.read [0x3C, 0x40] 0x90 = Except.error Err.shortInput ∨
        MidiMessage.read [0x3C, 0x40] 0x90 = Except.error Err.malformedInt) ∧
      MidiMessage.read [0x3C, 0x40] 0x90 ≠ Except.error Err.invalidMidiStatus) :=
  ⟨by decide, by decide,
    midi_read_total_in_channel_range [0x3C, 0x40] 0x90 (by decide) (by decide)⟩
